import Mathlib

/-!
Verification of the juggler websocket RPC / pub-sub gateway against its
natural-language specification.  The definitions below are shallow
embeddings of the Go source: pure functions become Lean functions,
stateful code becomes explicit state passing, machine integers become
Int/Nat, and fallible code returns Except/Option.
-/

namespace Juggler

/-! ## internal/wswriter: the limited writer (source: wswriter.go, Limit / limitedWriter.Write)

The Go code is:

    type limitedWriter struct { w io.Writer; n int64 }
    func Limit(w io.Writer, limit int64) io.Writer { return &limitedWriter{w: w, n: limit} }
    func (w *limitedWriter) Write(p []byte) (int, error) {
        w.n -= int64(len(p))
        if w.n < 0 { return 0, ErrWriteLimitExceeded }
        return w.w.Write(p)
    }

The underlying writer is modelled as accepting every byte, so a
successful Write forwards all `len p` bytes.  The writer state is the
remaining budget `n`, which may go negative. -/

/-- Error text of wswriter.ErrWriteLimitExceeded. -/
def ErrWriteLimitExceeded : String := "write limit exceeded"

/-- The limited writer state: the remaining byte budget (Go field `n`). -/
structure limitedWriter where
  n : Int
deriving Repr, DecidableEq

/-- wswriter.Limit: a fresh limited writer with capacity `limit`. -/
def Limit (limit : Int) : limitedWriter := ⟨limit⟩

/-- limitedWriter.Write on a payload of length `p`: the budget is
decremented by the full length first; if it went negative the write
fails with ErrWriteLimitExceeded and accepts zero bytes, otherwise all
`p` bytes are forwarded. -/
def limitedWriter.Write (w : limitedWriter) (p : Nat) : limitedWriter × Nat × Option String :=
  let n : Int := w.n - p
  if n < 0 then (⟨n⟩, 0, some ErrWriteLimitExceeded) else (⟨n⟩, p, none)

/-- Run a sequence of Write calls (given by their payload lengths),
returning the final writer state and the list of per-call results
(bytes accepted, error). -/
def writeAll (w : limitedWriter) (ps : List Nat) : limitedWriter × List (Nat × Option String) :=
  match ps with
  | [] => (w, [])
  | p :: rest =>
    let s := w.Write p
    let t := writeAll s.1 rest
    (t.1, s.2 :: t.2)

theorem Write_fst (w : limitedWriter) (p : Nat) :
    (w.Write p).1 = ⟨w.n - p⟩ := by
  simp only [limitedWriter.Write]
  split <;> rfl

theorem Write_snd (w : limitedWriter) (p : Nat) :
    (w.Write p).2 = if w.n - (p : Int) < 0
      then (0, some ErrWriteLimitExceeded) else (p, none) := by
  simp only [limitedWriter.Write]
  split <;> simp_all

theorem writeAll_length (w : limitedWriter) (ps : List Nat) :
    (writeAll w ps).2.length = ps.length := by
  induction ps generalizing w with
  | nil => rfl
  | cons p rest ih => simp [writeAll, ih]

theorem writeAll_final (w : limitedWriter) (ps : List Nat) :
    (writeAll w ps).1.n = w.n - (ps.sum : Int) := by
  induction ps generalizing w with
  | nil => simp [writeAll]
  | cons p rest ih =>
    simp only [writeAll, Write_fst, ih, List.sum_cons]
    push_cast
    ring

/-- The i-th Write in a run starting from budget `n` succeeds (returning
its full length) iff the sum of the lengths of calls 0..i is at most
`n`; otherwise it fails with the write-limit error. -/
theorem writeAll_get (n : Int) (ps : List Nat) (i : Nat) :
    (writeAll ⟨n⟩ ps).2[i]? =
      (ps[i]?).map (fun p =>
        if ((ps.take (i + 1)).sum : Int) ≤ n
        then (p, none)
        else (0, some ErrWriteLimitExceeded)) := by
  induction ps generalizing n i with
  | nil => simp [writeAll]
  | cons p rest ih =>
    cases i with
    | zero =>
      simp only [writeAll, Write_fst, Write_snd, List.getElem?_cons_zero,
        List.take, List.sum_cons, List.sum_nil, Option.map_some']
      by_cases hc : (n - (p : Int)) < 0
      · rw [if_pos hc, if_neg (by push_cast; omega)]
      · rw [if_neg hc, if_pos (by push_cast; omega)]
    | succ j =>
      simp only [writeAll, Write_fst, List.getElem?_cons_succ]
      rw [ih (n - p) j]
      cases hj : rest[j]? with
      | none => simp
      | some q =>
        simp only [Option.map_some', Option.some_inj]
        have hiff : ((rest.take (j + 1)).sum : Int) ≤ n - p ↔
            (((p :: rest).take (j + 1 + 1)).sum : Int) ≤ n := by
          simp only [List.take, List.sum_cons]
          push_cast
          omega
        by_cases hs : ((rest.take (j + 1)).sum : Int) ≤ n - p
        · rw [if_pos hs, if_pos (hiff.mp hs)]
        · rw [if_neg hs, if_neg (fun hle => hs (hiff.mpr hle))]

theorem sum_take_mono (ps : List Nat) :
    ∀ i j, i ≤ j → (ps.take i).sum ≤ (ps.take j).sum := by
  induction ps with
  | nil => intro i j _; simp
  | cons p rest ih =>
    intro i j hij
    cases i with
    | zero => simp
    | succ i' =>
      cases j with
      | zero => omega
      | succ j' =>
        simp only [List.take, List.sum_cons]
        exact Nat.add_le_add_left (ih i' j' (by omega)) p

/-- Claim C6: for a limited writer of capacity C and any sequence of
Write calls, the i-th Write forwards all its bytes and returns no error
exactly when the running total of lengths handed to Write over calls
0..i stays at most C, and otherwise fails with the write-limit-exceeded
error accepting zero bytes of that call. -/
theorem limitedWriter_write_succeeds_iff_within_cap (C : Int) (ps : List Nat) (i : Nat) :
    (writeAll (Limit C) ps).2[i]? =
      (ps[i]?).map (fun p =>
        if ((ps.take (i + 1)).sum : Int) ≤ C
        then (p, none)
        else (0, some ErrWriteLimitExceeded)) :=
  writeAll_get C ps i

/-- Claim C10: every Write subtracts the full length of its argument
from the budget even when it fails (the final budget is C minus the sum
of all lengths), so once a Write on a limited writer has failed with
the write-limit-exceeded error, every subsequent Write on that writer
fails with the same error. -/
theorem limitedWriter_failure_is_permanent (C : Int) (ps : List Nat)
    (i j : Nat) (hij : i ≤ j) (hj : j < ps.length) (r : Nat × Option String)
    (hi : (writeAll (Limit C) ps).2[i]? = some r)
    (hr : r.2 = some ErrWriteLimitExceeded) :
    (writeAll (Limit C) ps).2[j]? = some (0, some ErrWriteLimitExceeded) ∧
    (writeAll (Limit C) ps).1.n = C - (ps.sum : Int) := by
  simp only [Limit] at hi ⊢
  constructor
  · have hgi := writeAll_get C ps i
    rw [hi] at hgi
    cases hpi : ps[i]? with
    | none => rw [hpi] at hgi; exact absurd hgi (by simp)
    | some p =>
      rw [hpi] at hgi
      simp only [Option.map_some'] at hgi
      have hfail : ¬ ((ps.take (i + 1)).sum : Int) ≤ C := by
        intro hle
        rw [if_pos hle] at hgi
        have hrn : r.2 = none := by
          have h2 := hgi.symm
          simp only [Option.some_inj] at h2
          rw [← h2]
        rw [hr] at hrn
        exact absurd hrn (by simp)
      have hgj := writeAll_get C ps j
      have hpj : ps[j]? = some (ps.get ⟨j, hj⟩) := List.getElem?_eq_getElem hj
      rw [hpj] at hgj
      simp only [Option.map_some'] at hgj
      have hmono : ¬ ((ps.take (j + 1)).sum : Int) ≤ C := by
        intro hle
        apply hfail
        have := sum_take_mono ps (i + 1) (j + 1) (by omega)
        calc ((ps.take (i + 1)).sum : Int) ≤ ((ps.take (j + 1)).sum : Int) := by
              exact_mod_cast this
          _ ≤ C := hle
      rw [if_neg hmono] at hgj
      exact hgj
  · exact writeAll_final (Limit C) ps

/-- Witness for C10 at a concrete input: capacity 1, writes of lengths
2 then 0.  The first write fails, and the second also fails even though
zero bytes were actually accepted. -/
theorem limitedWriter_failure_is_permanent_witness :
    (writeAll (Limit 1) [2, 0]).2[1]? = some (0, some ErrWriteLimitExceeded) ∧
    (writeAll (Limit 1) [2, 0]).1.n = 1 - (([2, 0] : List Nat).sum : Int) :=
  limitedWriter_failure_is_permanent 1 [2, 0] 0 1 (by decide) (by decide)
    (0, some ErrWriteLimitExceeded) rfl rfl

/-! ## The default processor's write path (source: part_007, PuerkitoBio-era
msg_handler.go, `doWrite` at lines 197-223)

The Go code is:

    func doWrite(c *Conn, m message.Msg, addFn func(string, int64)) {
        if err := writeMsg(c, m); err != nil {
            switch err {
            case ErrWriteLockTimeout:
                addFn("WriteLockTimeouts", 1)
                c.Close(...)
            case wswriter.ErrWriteLimitExceeded:
                addFn("WriteLimitExceeded", 1)
                logf(...)
                // no good http code for this case
                if err := writeMsg(c, message.NewNack(m, 599, err)); err != nil {
                    if err == ErrWriteLockTimeout {
                        addFn("WriteLockTimeouts", 1)
                        c.Close(...)
                    } else {
                        logf(...)
                    }
                    return
                }
            default:
                logf(...)
            }
        }
    }

The outcome of each attempted wire write is abstracted as a
WriteAttempt; the observable effects (metric increments, whether the
NACK(599) was attempted, whether Conn.Close was called) are collected
in a record.  The repository snapshot also holds a later (mna-era)
revision of doWrite that closes immediately on a write-limit error;
the revision embedded here is the one the specification describes. -/

/-- Possible outcomes of one writeMsg call on the wire. -/
inductive WriteAttempt where
  | success
  | lockTimeout
  | limitExceeded
  | otherErr
deriving Repr, DecidableEq

/-- Observable effects of one doWrite invocation. -/
structure DoWriteEffects where
  writeLockTimeouts : Nat
  writeLimitExceededVar : Nat
  nackCode : Option Nat
  closed : Bool
deriving Repr, DecidableEq

/-- doWrite: `first` is the outcome of writing the message itself,
`second` the outcome of writing the secondary NACK (consulted only when
the first write failed with the write-limit error). -/
def doWrite (first second : WriteAttempt) : DoWriteEffects :=
  match first with
  | .success => ⟨0, 0, none, false⟩
  | .lockTimeout => ⟨1, 0, none, true⟩
  | .limitExceeded =>
    match second with
    | .lockTimeout => ⟨1, 1, some 599, true⟩
    | _ => ⟨0, 1, some 599, false⟩
  | .otherErr => ⟨0, 0, none, false⟩

/-- Claim C3: when a server-message write fails with the
write-limit-exceeded error, the WriteLimitExceeded metric is
incremented and a NACK with code 599 is attempted on the wire; the
connection is closed exactly when that secondary write fails with the
write-lock-timeout error, and no other failure of the secondary write
closes it. -/
theorem doWrite_limit_exceeded_nacks_599 (second : WriteAttempt) :
    (doWrite .limitExceeded second).writeLimitExceededVar = 1 ∧
    (doWrite .limitExceeded second).nackCode = some 599 ∧
    (doWrite .limitExceeded second).closed = decide (second = .lockTimeout) := by
  cases second <;> simp [doWrite]

/-! ## broker/redisbroker: atomic enqueue-with-TTL (source: part_011,
broker.go, `callOrResScript` and `registerCallOrRes`)

The server-side Lua script is:

    redis.call("SET", KEYS[1], ARGV[1], "PX", tonumber(ARGV[1]))
    local res = redis.call("LPUSH", KEYS[2], ARGV[2])
    local limit = tonumber(ARGV[3])
    if res > limit and limit > 0 then
        local diff = res - limit
        redis.call("LTRIM", KEYS[2], diff, limit + diff)
        return redis.error_reply("list capacity exceeded")
    end
    return res

and the Go caller computes

    to := int(timeout / time.Millisecond)
    if to == 0 { to = int(broker.DefaultCallTimeout / time.Millisecond) }

The state visible to the script is the pair of keys it touches: the
timeout key (value and PX expiry) and the list key (head = most
recently LPUSHed element).  Go durations are nanosecond Ints and Go
integer division truncates toward zero (Int.tdiv). -/

/-- The two store keys touched by one enqueue: the SET..PX timeout key
(stored value and expiry, both in ms) and the FIFO list. -/
structure RedisListState where
  timeoutKey : Option (Int × Int)
  list : List String
deriving Repr, DecidableEq

/-- Redis LTRIM start stop: keep the elements at indices start..stop
(inclusive), for the in-range indices used by the script. -/
def ltrim (l : List String) (start stop : Nat) : List String :=
  (l.take (stop + 1)).drop start

/-- The callOrResScript body: SET the timeout key with PX, LPUSH the
payload, and enforce the capacity; on overflow the list is trimmed back
and the script replies with the capacity error. -/
def callOrResScript (st : RedisListState) (toMs : Int) (payload : String)
    (cap : Int) : RedisListState × Except String Nat :=
  let newList := payload :: st.list
  let res := newList.length
  if (res : Int) > cap ∧ cap > 0 then
    let diff : Nat := res - cap.toNat
    (⟨some (toMs, toMs), ltrim newList diff (cap.toNat + diff)⟩,
      .error ("list capacity exceeded"))
  else
    (⟨some (toMs, toMs), newList⟩, .ok res)

/-- One Go nanosecond-duration millisecond (time.Millisecond). -/
def Millisecond : Int := 1000000

/-- Modelled from the spec: `broker.DefaultCallTimeout` lives in the
broker package, which is not under src/ (only its callers are); the
spec gives "a broker-level constant (e.g. one minute)". -/
def DefaultCallTimeout : Int := 60 * 1000000000

/-- registerCallOrRes: marshal aside, compute the timeout in ms
(truncating), substitute the default when it truncates to zero, and run
the atomic script. -/
def registerCallOrRes (st : RedisListState) (timeout : Int) (payload : String)
    (cap : Int) : RedisListState × Except String Nat :=
  let t := Int.tdiv timeout Millisecond
  let t' := if t = 0 then Int.tdiv DefaultCallTimeout Millisecond else t
  callOrResScript st t' payload cap

/-- Claim C1: an enqueue with timeout t and cap c sets the timeout key
with PX expiration t in milliseconds (the broker default when t
truncates to zero ms) and LPUSHes the payload; when the new length res
satisfies res > c with c > 0 the script trims the list with LTRIM from
res-c to c+res-c and the enqueue fails with the capacity error, while
otherwise (in particular when c = 0, which disables the check) the
enqueue succeeds returning the new length. -/
theorem broker_enqueue_script_behaviour (st : RedisListState) (timeout : Int)
    (payload : String) (cap : Int) :
    (registerCallOrRes st timeout payload cap).1.timeoutKey =
      (let t := Int.tdiv timeout Millisecond
       let px := if t = 0 then Int.tdiv DefaultCallTimeout Millisecond else t
       some (px, px)) ∧
    (if ((st.list.length + 1 : Nat) : Int) > cap ∧ cap > 0 then
        (registerCallOrRes st timeout payload cap).2 =
          .error ("list capacity exceeded") ∧
        (registerCallOrRes st timeout payload cap).1.list =
          ltrim (payload :: st.list) (st.list.length + 1 - cap.toNat)
            (cap.toNat + (st.list.length + 1 - cap.toNat))
      else
        (registerCallOrRes st timeout payload cap).2 = .ok (st.list.length + 1) ∧
        (registerCallOrRes st timeout payload cap).1.list = payload :: st.list) := by
  simp only [registerCallOrRes, callOrResScript, List.length_cons]
  split <;> simp

/-! ## broker/redisbroker: expiry-aware dequeue (source: part_011,
calls.go `callsConn.Calls` and results.go `resultsConn.sendResult`)

For each value popped by BRPOP the loop unmarshals the payload, runs
the atomic PTTL-and-DEL script on the matching timeout key,

    local res = redis.call("PTTL", KEYS[1])
    redis.call("DEL", KEYS[1])
    return res

and then drops or delivers.  The per-payload processing is embedded as
a function of the unmarshal outcome (none = unmarshal failure), the
script outcome, and the current time; it returns the metric increments
and the optionally delivered payload. -/

/-- message.CallPayload.  ReadTimestamp and TTLAfterRead are zero until
the dequeuer populates them. -/
structure CallPayload where
  connUUID : String
  msgUUID : String
  uri : String
  args : String
  readTimestamp : Int
  ttlAfterRead : Int
deriving Repr, DecidableEq

/-- message.ResPayload. -/
structure ResPayload where
  connUUID : String
  msgUUID : String
  uri : String
  args : String
deriving Repr, DecidableEq

/-- The expvar counters the broker dequeue paths touch. -/
structure BrokerMetrics where
  failedCallPayloadUnmarshals : Nat
  failedPTTLCalls : Nat
  expiredCalls : Nat
  failedResPayloadUnmarshals : Nat
  failedPTTLResults : Nat
  expiredResults : Nat
  results : Nat
deriving Repr, DecidableEq

def noMetrics : BrokerMetrics := ⟨0, 0, 0, 0, 0, 0, 0⟩

def BrokerMetrics.add (a b : BrokerMetrics) : BrokerMetrics :=
  ⟨a.failedCallPayloadUnmarshals + b.failedCallPayloadUnmarshals,
   a.failedPTTLCalls + b.failedPTTLCalls,
   a.expiredCalls + b.expiredCalls,
   a.failedResPayloadUnmarshals + b.failedResPayloadUnmarshals,
   a.failedPTTLResults + b.failedPTTLResults,
   a.expiredResults + b.expiredResults,
   a.results + b.results⟩

/-- Per-payload processing of the calls dequeue loop (part_011,
calls.go lines 506-536): an unmarshal failure is only logged and
dropped (no metric is incremented on this path); a PTTL-script failure
increments FailedPTTLCalls and drops; pttl ≤ 0 increments ExpiredCalls
and drops; otherwise the payload is delivered with ReadTimestamp = now
and TTLAfterRead = pttl milliseconds. -/
def processCallValue (unmarshaled : Option CallPayload)
    (script : Except String Int) (now : Int) :
    BrokerMetrics × Option CallPayload :=
  match unmarshaled with
  | none => (noMetrics, none)
  | some cp =>
    match script with
    | .error _ => (⟨0, 1, 0, 0, 0, 0, 0⟩, none)
    | .ok pttl =>
      if pttl ≤ 0 then (⟨0, 0, 1, 0, 0, 0, 0⟩, none)
      else (noMetrics,
        some { cp with readTimestamp := now, ttlAfterRead := pttl * Millisecond })

/-- Per-payload processing of the results dequeue loop (part_011,
results.go `sendResult`): an unmarshal failure increments
FailedResPayloadUnmarshals and drops; a PTTL-script failure increments
FailedPTTLResults and drops; pttl ≤ 0 increments ExpiredResults and
drops; otherwise the payload is delivered and Results incremented. -/
def sendResult (unmarshaled : Option ResPayload)
    (script : Except String Int) :
    BrokerMetrics × Option ResPayload :=
  match unmarshaled with
  | none => (⟨0, 0, 0, 1, 0, 0, 0⟩, none)
  | some rp =>
    match script with
    | .error _ => (⟨0, 0, 0, 0, 1, 0, 0⟩, none)
    | .ok pttl =>
      if pttl ≤ 0 then (⟨0, 0, 0, 0, 0, 1, 0⟩, none)
      else (⟨0, 0, 0, 0, 0, 0, 1⟩, some rp)

/-- The calls dequeue loop over a sequence of popped values: each item
is processed in turn, the metric increments accumulate, and delivered
payloads are collected in order.  A dropped item never stops the loop. -/
def pollCalls (items : List (Option CallPayload × Except String Int × Int)) :
    BrokerMetrics × List CallPayload :=
  match items with
  | [] => (noMetrics, [])
  | it :: rest =>
    let r := processCallValue it.1 it.2.1 it.2.2
    let t := pollCalls rest
    (r.1.add t.1, r.2.toList ++ t.2)

/-- Claim C2: after the atomic PTTL-and-DEL script, a script error
drops the payload with FailedPTTLCalls/FailedPTTLResults incremented, a
pttl ≤ 0 drops it with ExpiredCalls/ExpiredResults incremented, and
otherwise it is delivered (for calls with read-timestamp = now and
ttl-after-read = pttl ms); every drop lets the loop continue with the
next pop, so the delivered stream is exactly the filtered stream. -/
theorem dequeue_pttl_check_behaviour :
    (∀ (cp : CallPayload) (e : String) (now : Int),
      processCallValue (some cp) (.error e) now = (⟨0, 1, 0, 0, 0, 0, 0⟩, none)) ∧
    (∀ (cp : CallPayload) (pttl now : Int),
      processCallValue (some cp) (.ok pttl) now =
        if pttl ≤ 0 then (⟨0, 0, 1, 0, 0, 0, 0⟩, none)
        else (noMetrics,
          some { cp with readTimestamp := now, ttlAfterRead := pttl * Millisecond })) ∧
    (∀ (rp : ResPayload) (e : String),
      sendResult (some rp) (.error e) = (⟨0, 0, 0, 0, 1, 0, 0⟩, none)) ∧
    (∀ (rp : ResPayload) (pttl : Int),
      sendResult (some rp) (.ok pttl) =
        if pttl ≤ 0 then (⟨0, 0, 0, 0, 0, 1, 0⟩, none)
        else (⟨0, 0, 0, 0, 0, 0, 1⟩, some rp)) ∧
    (∀ items, (pollCalls items).2 =
      items.filterMap (fun it => (processCallValue it.1 it.2.1 it.2.2).2)) := by
  refine ⟨fun _ _ _ => rfl, fun _ _ _ => rfl, fun _ _ => rfl, fun _ _ => rfl, ?_⟩
  intro items
  induction items with
  | nil => rfl
  | cons it rest ih =>
    simp only [pollCalls, List.filterMap_cons, ih]
    cases h : (processCallValue it.1 it.2.1 it.2.2).2 <;> simp

/-- Claim C7 (divergence witness): a call payload that fails to
unmarshal is dropped, but no metric at all is incremented on the calls
path — in particular FailedCallPayloadUnmarshals stays 0 — whereas the
results path does increment FailedResPayloadUnmarshals as documented. -/
theorem calls_unmarshal_failure_drops_without_metric :
    processCallValue none (.ok 1000) 0 = (noMetrics, none) ∧
    noMetrics.failedCallPayloadUnmarshals = 0 ∧
    sendResult none (.ok 1000) = (⟨0, 0, 0, 1, 0, 0, 0⟩, none) :=
  ⟨rfl, rfl, rfl⟩

/-! ## callee: timeout-aware invocation (source: part_010,
`Callee.InvokeAndStoreResult` and `Callee.storeResult`)

The Go code measures the handler's run time and compares it with the
TTL budget read by the dequeuer:

    ttl := cp.TTLAfterRead
    start := time.Now()
    v, err := fn(cp)
    if remain := ttl - time.Now().Sub(start); remain > 0 {
        return c.storeResult(cp, v, err, remain)
    }
    return ErrCallExpired

The handler call is abstracted by its outputs: the elapsed duration,
the marshaled success value, and the optional returned error (with its
own JSON form when it implements json.Marshaler).  Broker.Result is
modelled by returning the submitted payload together with the timeout
it was submitted with. -/

/-- Error text of callee.ErrCallExpired. -/
def ErrCallExpired : String := "juggler/callee: call expired"

/-- A Go error value as the callee sees it: its Error() text and, when
it implements json.Marshaler, its JSON form. -/
structure GoError where
  text : String
  jsonForm : Option String
deriving Repr, DecidableEq

/-- The marshaled message.ErrResult shape for an error without its own
JSON form. -/
def marshalErrResult (msg : String) : String :=
  "\x7b\"error\":\x7b\"message\":\"" ++ msg ++ "\"\x7d\x7d"

/-- Callee.storeResult: an error replaces the handler value (its own
JSON form when available, the generic error-result shape otherwise),
and the payload is submitted via Broker.Result with the given timeout. -/
def storeResult (cp : CallPayload) (v : String) (e : Option GoError)
    (timeout : Int) : ResPayload × Int :=
  let payload :=
    match e with
    | none => v
    | some err =>
      match err.jsonForm with
      | some j => j
      | none => marshalErrResult err.text
  (⟨cp.connUUID, cp.msgUUID, cp.uri, payload⟩, timeout)

/-- Callee.InvokeAndStoreResult, with the handler abstracted by the
elapsed time it took and its outputs. -/
def InvokeAndStoreResult (cp : CallPayload) (elapsed : Int) (v : String)
    (e : Option GoError) : Except String (ResPayload × Int) :=
  let remain := cp.ttlAfterRead - elapsed
  if remain > 0 then .ok (storeResult cp v e remain)
  else .error ErrCallExpired

/-- Claim C8: with remaining = ttl-after-read minus the handler's
elapsed run time, a call with remaining ≤ 0 stores nothing and returns
the call-expired error; otherwise the handler value (or the error's own
JSON form when it has one, or the generic error shape) is stored via
Broker.Result with timeout exactly equal to remaining. -/
theorem callee_invoke_respects_remaining_ttl (cp : CallPayload)
    (elapsed : Int) (v : String) (e : Option GoError) :
    InvokeAndStoreResult cp elapsed v e =
      if cp.ttlAfterRead - elapsed ≤ 0 then .error ErrCallExpired
      else .ok (⟨cp.connUUID, cp.msgUUID, cp.uri,
        match e with
        | none => v
        | some err => (err.jsonForm).getD (marshalErrResult err.text)⟩,
        cp.ttlAfterRead - elapsed) := by
  simp only [InvokeAndStoreResult, storeResult]
  by_cases h : cp.ttlAfterRead - elapsed > 0
  · rw [if_pos h, if_neg (by omega)]
    cases e with
    | none => rfl
    | some err =>
      rcases err with ⟨t, jf⟩
      cases jf <;> rfl
  · rw [if_neg h, if_pos (by omega)]

/-! ## The gateway connection's close latch (source: conn.go as carried
in src/README.wait.md, `Conn.Close`)

    func (c *Conn) Close(err error) {
        c.closeOnce.Do(func() {
            c.CloseErr = err
            if c.psc != nil { c.psc.Close() }
            if c.resc != nil { c.resc.Close() }
            close(c.kill)
        })
    }

closeOnce makes every call after the first a no-op; note that the
first call stores its argument as CloseErr whether or not it is nil. -/

/-- The close-relevant state of a gateway connection. -/
structure Conn where
  closeErr : Option String
  closed : Bool
  killClosedCount : Nat
  pscClosedCount : Nat
  rescClosedCount : Nat
  hasPsc : Bool
  hasResc : Bool
deriving Repr, DecidableEq

/-- A freshly accepted connection, with or without the optional
dedicated pub-sub and results broker handles. -/
def newConnState (hasPsc hasResc : Bool) : Conn :=
  ⟨none, false, 0, 0, 0, hasPsc, hasResc⟩

/-- Conn.Close: a no-op once the close latch has fired; the first call
records its error argument, closes the broker handles that exist and
closes the kill channel. -/
def Conn.Close (c : Conn) (e : Option String) : Conn :=
  if c.closed then c
  else { c with
    closed := true
    closeErr := e
    pscClosedCount := c.pscClosedCount + (if c.hasPsc then 1 else 0)
    rescClosedCount := c.rescClosedCount + (if c.hasResc then 1 else 0)
    killClosedCount := c.killClosedCount + 1 }

/-- A sequence of Close calls with the given error arguments. -/
def closeSeq (c : Conn) (es : List (Option String)) : Conn :=
  es.foldl Conn.Close c

/-- The first non-nil error of a sequence, as claim C5 reads it. -/
def firstNonNil (es : List (Option String)) : Option String :=
  (es.filterMap id).head?

theorem closeSeq_of_closed (c : Conn) (es : List (Option String))
    (h : c.closed = true) : closeSeq c es = c := by
  induction es with
  | nil => rfl
  | cons e rest ih =>
    simp only [closeSeq, List.foldl_cons, Conn.Close, h, if_true]
    exact ih

/-- Counterexample to claim C5 as stated: closing first with a nil
error and then with a real one leaves the close-error nil, not equal to
the first non-nil error of the sequence. -/
theorem conn_close_first_nonnil_error_counterexample :
    ¬ ((closeSeq (newConnState true true) [none, some ("boom")]).closeErr =
        firstNonNil [none, some ("boom")]) := by
  decide

/-- Claim C5 as amended: for every non-empty sequence of Close calls,
the close-notify (kill) channel is closed exactly once, each broker
handle is closed at most once, and the close-error field equals the
argument of the FIRST Close call — even when that argument is nil and a
later call carries a non-nil error. -/
theorem conn_close_idempotent_first_argument_wins (hasPsc hasResc : Bool)
    (e : Option String) (es : List (Option String)) :
    (closeSeq (newConnState hasPsc hasResc) (e :: es)).killClosedCount = 1 ∧
    (closeSeq (newConnState hasPsc hasResc) (e :: es)).pscClosedCount ≤ 1 ∧
    (closeSeq (newConnState hasPsc hasResc) (e :: es)).rescClosedCount ≤ 1 ∧
    (closeSeq (newConnState hasPsc hasResc) (e :: es)).closeErr = e := by
  have h1 : Conn.Close (newConnState hasPsc hasResc) e =
      { closeErr := e, closed := true, killClosedCount := 1,
        pscClosedCount := if hasPsc then 1 else 0,
        rescClosedCount := if hasResc then 1 else 0,
        hasPsc := hasPsc, hasResc := hasResc } := by
    simp only [Conn.Close, newConnState]
    split <;> simp_all
  have h2 : closeSeq (newConnState hasPsc hasResc) (e :: es) =
      Conn.Close (newConnState hasPsc hasResc) e := by
    simp only [closeSeq, List.foldl_cons]
    exact closeSeq_of_closed _ es (by rw [h1])
  rw [h2, h1]
  refine ⟨rfl, ?_, ?_, rfl⟩ <;> dsimp only <;> split <;> omega

/-! ## Server: allowed-messages header parsing (source: part_006,
`Upgrade` lines 205-221 and `Server.ServeConn` lines 121-124)

    var msgs []message.Type
    if allowed := strings.TrimSpace(r.Header.Get("Juggler-Allowed-Messages")); allowed != "" && allowed != "*" {
        types := strings.Split(allowed, ",")
        for _, typ := range types {
            typ := strings.TrimSpace(strings.ToLower(typ))
            switch typ {
            case "call": msgs = append(msgs, message.CallMsg)
            case "sub":  msgs = append(msgs, message.SubMsg)
            case "unsb": msgs = append(msgs, message.UnsbMsg)
            case "pub":  msgs = append(msgs, message.PubMsg)
            }
        }
    }
    srv.ServeConn(wsConn, msgs...)

and in ServeConn:

    if len(allowedMsgs) == 0 { allowedMsgs = allReqMsgs }
-/

/-- The request message types (message.Type values used here). -/
inductive MsgType where
  | CallMsg
  | SubMsg
  | UnsbMsg
  | PubMsg
deriving Repr, DecidableEq

/-- part_006 `allReqMsgs`: all four standard request types. -/
def allReqMsgs : List MsgType :=
  [MsgType.CallMsg, MsgType.SubMsg, MsgType.UnsbMsg, MsgType.PubMsg]

/-- strings.TrimSpace: drop leading and trailing whitespace. -/
def TrimSpace (s : String) : String :=
  ⟨(((s.data.dropWhile Char.isWhitespace).reverse).dropWhile
      Char.isWhitespace).reverse⟩

/-- strings.Split with the one-character separator "," on the
underlying character list: split at every comma, keeping empty pieces. -/
def splitCommaChars : List Char → List (List Char)
  | [] => [[]]
  | c :: rest =>
    if c = ',' then [] :: splitCommaChars rest
    else
      match splitCommaChars rest with
      | h :: t => (c :: h) :: t
      | [] => [[c]]

/-- strings.Split(s, ","). -/
def SplitComma (s : String) : List String :=
  (splitCommaChars s.data).map (fun cs => ⟨cs⟩)

/-- strings.ToLower. -/
def ToLower (s : String) : String :=
  ⟨s.data.map Char.toLower⟩

/-- The switch of the Upgrade token loop: lower-case then trim a token
and map the four recognized names; anything else maps to none (the Go
switch has no default case). -/
def tokenToType (typ : String) : Option MsgType :=
  let t := TrimSpace (ToLower typ)
  if t = "call" then some MsgType.CallMsg
  else if t = "sub" then some MsgType.SubMsg
  else if t = "unsb" then some MsgType.UnsbMsg
  else if t = "pub" then some MsgType.PubMsg
  else none

/-- The Upgrade handler's parsing of the Juggler-Allowed-Messages
header into the allowed-message list passed to ServeConn. -/
def upgradeAllowed (header : String) : List MsgType :=
  let allowed := TrimSpace header
  if allowed ≠ "" ∧ allowed ≠ "*" then
    (SplitComma allowed).foldl
      (fun msgs typ =>
        match tokenToType typ with
        | some t => msgs ++ [t]
        | none => msgs) []
  else []

/-- ServeConn's defaulting: an empty allowed list means every request
type is allowed. -/
def serveConnAllowed (msgs : List MsgType) : List MsgType :=
  if msgs.length = 0 then allReqMsgs else msgs

theorem upgrade_foldl_filterMap (l : List String) (acc : List MsgType) :
    l.foldl
      (fun msgs typ =>
        match tokenToType typ with
        | some t => msgs ++ [t]
        | none => msgs) acc = acc ++ l.filterMap tokenToType := by
  induction l generalizing acc with
  | nil => simp
  | cons typ rest ih =>
    simp only [List.foldl_cons, List.filterMap_cons]
    cases h : tokenToType typ <;> simp [h, ih]

/-- Claim C9: for a non-empty, non-star header, tokens other than
call/sub/unsb/pub (case-insensitive, trimmed) are silently skipped, so
a header of only unrecognized tokens parses to the empty list, and the
connection is then served with all four standard request types allowed
rather than rejected or restricted. -/
theorem unrecognized_header_tokens_mean_unrestricted (header : String)
    (h1 : TrimSpace header ≠ "") (h2 : TrimSpace header ≠ "*") :
    upgradeAllowed header =
      (SplitComma (TrimSpace header)).filterMap tokenToType ∧
    ((∀ typ ∈ SplitComma (TrimSpace header), tokenToType typ = none) →
      upgradeAllowed header = [] ∧
      serveConnAllowed (upgradeAllowed header) = allReqMsgs) := by
  have hmain : upgradeAllowed header =
      (SplitComma (TrimSpace header)).filterMap tokenToType := by
    simp only [upgradeAllowed]
    rw [if_pos ⟨h1, h2⟩]
    exact upgrade_foldl_filterMap _ []
  refine ⟨hmain, fun hall => ?_⟩
  have hnil : upgradeAllowed header = [] := by
    rw [hmain]
    exact List.filterMap_eq_nil_iff.mpr hall
  exact ⟨hnil, by rw [hnil]; rfl⟩

/-- Witness for C9 at the concrete header "foo, bar": both tokens are
unrecognized, so the parsed set is empty and the connection is served
with all four request types. -/
theorem unrecognized_header_tokens_mean_unrestricted_witness :
    upgradeAllowed ("foo, bar") = [] ∧
    serveConnAllowed (upgradeAllowed ("foo, bar")) = allReqMsgs :=
  (unrecognized_header_tokens_mean_unrestricted ("foo, bar")
    (by decide) (by decide)).2 (by decide)

/-! ## Client: pending calls and the synthetic EXP (source:
client/client.go, `handleMessages` lines 80-97 and `handleExpiredCall`
lines 165-182)

For one CALL the relevant shared state is whether its id is still in
the client's pending set (`results` map).  Both the read loop and the
expiry goroutine remove the id with `deletePending`, an atomic
test-and-delete under the client mutex:

    case *message.Res:
        if ok := c.deletePending(m.Payload.For.String()); !ok { continue }  // drop
    case *message.Nack:
        if m.Payload.ForType == message.CallMsg { c.deletePending(...) }
    ...
    go c.handler.Handle(ctx, m)

    // handleExpiredCall, after the timeout fires once:
    if ok := c.deletePending(m.UUID().String()); ok { go c.handler.Handle(ctx, newExp(m)) }

The interleaving of these atomic steps for a single call id is
modelled as a sequence of events; `timeout` occurs at most once per
call because handleExpiredCall is one goroutine whose select fires
once.  Events that concern other ids or other message types are
`other`. -/

/-- Atomic events touching one call id's pending entry. -/
inductive ClientEvent where
  | res
  | nackCall
  | timeout
  | other
deriving Repr, DecidableEq

/-- Handler dispatches observable for that call. -/
inductive Dispatch where
  | resDispatch
  | nackDispatch
  | expDispatch
deriving Repr, DecidableEq

/-- One atomic step on the pending flag, returning the new flag and
the handler dispatches it performs. -/
def clientStep (pending : Bool) (e : ClientEvent) : Bool × List Dispatch :=
  match e with
  | .res => if pending then (false, [.resDispatch]) else (pending, [])
  | .nackCall => (false, [.nackDispatch])
  | .timeout => if pending then (false, [.expDispatch]) else (pending, [])
  | .other => (pending, [])

/-- Run a sequence of events from a pending flag, collecting all
dispatches in order. -/
def clientRun (pending : Bool) (es : List ClientEvent) : Bool × List Dispatch :=
  match es with
  | [] => (pending, [])
  | e :: rest =>
    let s := clientStep pending e
    let t := clientRun s.1 rest
    (t.1, s.2 ++ t.2)

theorem clientRun_false (es : List ClientEvent) :
    (clientRun false es).2.count Dispatch.resDispatch = 0 ∧
    (clientRun false es).2.count Dispatch.expDispatch = 0 := by
  induction es with
  | nil => exact ⟨rfl, rfl⟩
  | cons e rest ih =>
    cases e <;>
      simp only [clientRun, clientStep, if_neg (by simp : ¬ false = true),
        List.count_append, List.count_nil, List.count_cons, List.count_singleton] <;>
      simp_all

/-- Claim C4: starting from a pending CALL, if the call timeout fires
with no RES and no CALL-NACK received before it, exactly one synthetic
EXP is dispatched and no RES is ever dispatched for that call (a late
RES finds the id gone and is dropped); and over every possible
interleaving a call yields at most one of a RES dispatch or an EXP
dispatch, never both. -/
theorem client_call_res_xor_exp (pre post : List ClientEvent)
    (hpre : ∀ e ∈ pre, e = ClientEvent.other) :
    (clientRun true (pre ++ ClientEvent.timeout :: post)).2.count
        Dispatch.expDispatch = 1 ∧
    (clientRun true (pre ++ ClientEvent.timeout :: post)).2.count
        Dispatch.resDispatch = 0 ∧
    ∀ es : List ClientEvent,
      (clientRun true es).2.count Dispatch.resDispatch +
        (clientRun true es).2.count Dispatch.expDispatch ≤ 1 := by
  refine ⟨?_, ?_, ?_⟩
  · induction pre with
    | nil =>
      simp only [List.nil_append, clientRun, clientStep, if_pos rfl,
        List.count_append, List.singleton_append, List.count_cons]
      have := (clientRun_false post).2
      simp_all
    | cons e rest ih =>
      have he : e = ClientEvent.other := hpre e (by simp)
      subst he
      simp only [List.cons_append, clientRun, clientStep, List.nil_append,
        List.count_append, List.count_nil]
      exact ih (fun x hx => hpre x (by simp [hx]))
  · induction pre with
    | nil =>
      simp only [List.nil_append, clientRun, clientStep, if_pos rfl,
        List.count_append, List.singleton_append, List.count_cons]
      have := (clientRun_false post).1
      simp_all
    | cons e rest ih =>
      have he : e = ClientEvent.other := hpre e (by simp)
      subst he
      simp only [List.cons_append, clientRun, clientStep, List.nil_append,
        List.count_append, List.count_nil]
      exact ih (fun x hx => hpre x (by simp [hx]))
  · intro es
    induction es with
    | nil => simp [clientRun]
    | cons e rest ih =>
      cases e with
      | res =>
        simp only [clientRun, clientStep, if_pos rfl, List.singleton_append,
          List.count_cons, List.count_append]
        have := clientRun_false rest
        simp_all
      | nackCall =>
        simp only [clientRun, clientStep, List.singleton_append,
          List.count_cons, List.count_append]
        have := clientRun_false rest
        simp_all
      | timeout =>
        simp only [clientRun, clientStep, if_pos rfl, List.singleton_append,
          List.count_cons, List.count_append]
        have := clientRun_false rest
        simp_all
      | other =>
        simp only [clientRun, clientStep, List.nil_append]
        exact ih

/-- Witness for C4 at a concrete trace: an unrelated message, then the
timeout, then a late RES — exactly one EXP, no RES dispatch. -/
theorem client_call_res_xor_exp_witness :
    (clientRun true ([ClientEvent.other] ++
        ClientEvent.timeout :: [ClientEvent.res])).2.count
      Dispatch.expDispatch = 1 :=
  (client_call_res_xor_exp [ClientEvent.other] [ClientEvent.res]
    (by decide)).1

end Juggler
